import Mathlib

/-!
Verification of the graceful-shutdown server runtime (worker pool, futures,
connection pool, periodic cache refresher, application orchestrator).

The Go source is embedded shallowly:

* `Future` (Go `Future[R]`, built on `context.WithCancelCause`): the context's
  one-shot cancel cause is modelled as `completed : Option (FutureCause R)`.
  The first write wins; `cancel` on an already-cancelled context is a no-op,
  which `Future.callback` reproduces.  A Go task is a value of `TaskOutcome R`
  describing what `task(ctx)` does when invoked: return a `(result, err)`
  pair, or panic with a message.  `taskCall` is the raw call (a panic escapes
  as `Except.error`); `Future.invoke` wraps it with the `defer`/`recover`
  of the source, turning a panic into a `callback` with a "task panicked"
  error and a normal `(zero, nil)` return value.
* `WorkerPool` (Go `workerPool[R]`): `shutdown` models `ctx.Err() != nil`,
  `queue` the buffered `taskQueue` channel, `queueCap` its capacity
  (`size*2` at construction).  `submit` is Go `Submit` (the `select` with a
  `default` branch makes it a total function: it never blocks);
  `workerStep` is one iteration of the Go `worker` loop.
* `ConnPool`: the admission `select` in `Execute` is modelled by
  `waitResolveAux` over the sequence of events the blocked caller can
  observe; the resource-counting behaviour is the labelled transition
  system `CPStep` with reachability predicate `CPReachable`.
* The application orchestrator and the cache refresher loop are modelled by
  `shutdownOrder` / `initOrder` and `poolingLoop` / `refreshCount`.
-/

/-- Errors appearing in the Go source: the two sentinel errors of the worker
pool, `context.Canceled`, the "task panicked: %v" error built by
`Future.invoke`, and other opaque errors. -/
inductive GoErr : Type where
  | workerPoolShutdown
  | taskQueueFull
  | canceled
  | panicked (msg : String)
  | other (msg : String)
  deriving DecidableEq, Repr

/-- Behaviour of a Go `Task[R] = func(ctx) (R, error)` when invoked:
either it returns a `(result, err)` pair (`err = none` meaning `nil`),
or it panics with some message. -/
inductive TaskOutcome (R : Type) : Type where
  | ret (r : R) (e : Option GoErr)
  | panics (msg : String)
  deriving DecidableEq, Repr

/-- The cancel cause stored in the Future's context once it is cancelled:
either a `*futureResult[R]` written by the Future's own `callback`
(carrying the `(result, err)` pair), or an external cause propagated from
the parent (caller) context being cancelled first. -/
inductive FutureCause (R : Type) : Type where
  | fres (r : R) (e : Option GoErr)
  | ext (e : GoErr)
  deriving DecidableEq, Repr

/-- Go `Future[R]`.  `zero` is the zero value of `R` (`var zero R`),
`task` the wrapped task, and `completed` the one-shot cancel cause of the
Future's context (`none` = context not yet cancelled = Future pending). -/
structure Future (R : Type) : Type where
  zero : R
  task : TaskOutcome R
  completed : Option (FutureCause R)
  deriving DecidableEq, Repr

/-- Go `NewFuture`: wraps the task; the fresh child context is uncancelled. -/
def newFuture {R : Type} (zero : R) (task : TaskOutcome R) : Future R :=
  ⟨zero, task, none⟩

/-- Go `Future.IsDone`: `f.ctx.Err() != nil`, i.e. the context has been
cancelled by any party (own callback or parent). -/
def Future.isDone {R : Type} (f : Future R) : Bool :=
  f.completed.isSome

/-- The Future's `callback`: `cancel(&futureResult{result, err})`.  A
`context.CancelCauseFunc` only records the first cause; once the context is
cancelled (for any reason) further calls are no-ops. -/
def Future.callback {R : Type} (f : Future R) (r : R) (e : Option GoErr) : Future R :=
  match f.completed with
  | some _ => f
  | none => ⟨f.zero, f.task, some (FutureCause.fres r e)⟩

/-- Cancellation of the Future's parent (caller) context before the Future
completes: the child context is cancelled with the parent's cause `e`
(e.g. `context.Canceled`); if the Future already completed this is a no-op. -/
def Future.parentCancel {R : Type} (f : Future R) (e : GoErr) : Future R :=
  match f.completed with
  | some _ => f
  | none => ⟨f.zero, f.task, some (FutureCause.ext e)⟩

/-- Raw task call, before any recovery: `f.task(f.ctx)`.  A panic escapes
as `Except.error msg`. -/
def taskCall {R : Type} (t : TaskOutcome R) : Except String (R × Option GoErr) :=
  match t with
  | TaskOutcome.ret r e => Except.ok (r, e)
  | TaskOutcome.panics msg => Except.error msg

/-- Go `Future.invoke`: calls the task under `defer { recover }`.  On a
panic the deferred function fires `callback(zero, "task panicked: %v")`
and `invoke` returns the zero values `(zero, nil)`; on a normal return it
returns the task's pair untouched.  Returns the (possibly updated) Future
together with the returned pair. -/
def Future.invoke {R : Type} (f : Future R) : (R × Option GoErr) × Future R :=
  match taskCall f.task with
  | Except.ok p => (p, f)
  | Except.error msg =>
      ((f.zero, none), f.callback f.zero (some (GoErr.panicked msg)))

/-- Go `Future.Run`: no-op when already done, otherwise `invoke` then
`callback(result, err)` with the returned pair (after a recovered panic the
second callback is a no-op because the context is already cancelled). -/
def Future.run {R : Type} (f : Future R) : Future R :=
  if f.isDone then f
  else
    let p := f.invoke
    p.2.callback p.1.1 p.1.2

/-- Go `Future.Cancel`: `callback(zero, context.Canceled)`. -/
def Future.cancel {R : Type} (f : Future R) : Future R :=
  f.callback f.zero (some GoErr.canceled)

/-- Go `Future.Get`: waits on `f.Done()` (modelled by returning `none`
while the context is uncancelled, i.e. the call blocks), then inspects
`context.Cause(f.ctx)`: a `*futureResult` cause yields its stored pair,
any other non-nil cause is returned as `(zero value, cause)`. -/
def Future.get {R : Type} (f : Future R) : Option (R × Option GoErr) :=
  match f.completed with
  | none => none
  | some (FutureCause.fres r e) => some (r, e)
  | some (FutureCause.ext e) => some (f.zero, some e)

/-- One external operation on a Future: `Run()`, `Cancel()`, or
cancellation of the parent (caller) context with cause `e`. -/
inductive FOp : Type where
  | runOp
  | cancelOp
  | parentCancelOp (e : GoErr)
  deriving DecidableEq, Repr

/-- Apply one operation to a Future. -/
def applyFOp {R : Type} (f : Future R) (op : FOp) : Future R :=
  match op with
  | FOp.runOp => f.run
  | FOp.cancelOp => f.cancel
  | FOp.parentCancelOp e => f.parentCancel e

/-- Apply a sequence of operations, left to right. -/
def applyFOps {R : Type} (f : Future R) (ops : List FOp) : Future R :=
  ops.foldl applyFOp f

theorem callback_of_some {R : Type} (f : Future R) (c : FutureCause R)
    (h : f.completed = some c) (r : R) (e : Option GoErr) :
    f.callback r e = f := by
  unfold Future.callback
  rw [h]

theorem applyFOp_of_done {R : Type} (f : Future R) (c : FutureCause R)
    (h : f.completed = some c) (op : FOp) : applyFOp f op = f := by
  cases op with
  | runOp =>
      show f.run = f
      unfold Future.run Future.isDone
      rw [h]
      simp
  | cancelOp => exact callback_of_some f c h f.zero (some GoErr.canceled)
  | parentCancelOp e =>
      show f.parentCancel e = f
      unfold Future.parentCancel
      rw [h]

theorem applyFOps_of_done {R : Type} (f : Future R) (c : FutureCause R)
    (h : f.completed = some c) (ops : List FOp) : applyFOps f ops = f := by
  induction ops with
  | nil => rfl
  | cons op ops ih =>
      show applyFOps (applyFOp f op) ops = f
      rw [applyFOp_of_done f c h op]
      exact ih

theorem applyFOp_fresh_some {R : Type} (z : R) (t : TaskOutcome R) (op : FOp) :
    (applyFOp (newFuture z t) op).completed.isSome = true := by
  cases op with
  | runOp =>
      show (Future.run (newFuture z t)).completed.isSome = true
      unfold Future.run Future.isDone newFuture Future.invoke Future.callback taskCall
      cases t <;> simp
  | cancelOp =>
      show (Future.callback (newFuture z t) _ _).completed.isSome = true
      unfold Future.callback newFuture
      simp
  | parentCancelOp e =>
      show (Future.parentCancel (newFuture z t) e).completed.isSome = true
      unfold Future.parentCancel newFuture
      simp

/-- C1: for every Future, any sequence of `Run()` and `Cancel()` calls (and
even parent-context cancellations) starting from a fresh Future completes it
exactly once: the first operation stores a `(result, error)` pair (the
Future is done after it), the whole sequence leaves the Future exactly as
the first operation left it, and in particular every subsequent `Get()`
returns the value determined by that first completion. -/
theorem future_exactly_once {R : Type} (z : R) (t : TaskOutcome R)
    (op : FOp) (ops : List FOp) :
    applyFOps (newFuture z t) (op :: ops) = applyFOp (newFuture z t) op ∧
    (applyFOp (newFuture z t) op).completed.isSome = true ∧
    (applyFOps (newFuture z t) (op :: ops)).get =
      (applyFOp (newFuture z t) op).get := by
  have hsome : (applyFOp (newFuture z t) op).completed.isSome = true :=
    applyFOp_fresh_some z t op
  obtain ⟨c, hc⟩ := Option.isSome_iff_exists.mp hsome
  have hfix : applyFOps (applyFOp (newFuture z t) op) ops
      = applyFOp (newFuture z t) op := applyFOps_of_done _ c hc ops
  refine ⟨?_, hsome, ?_⟩
  · show applyFOps (applyFOp (newFuture z t) op) ops = applyFOp (newFuture z t) op
    exact hfix
  · show (applyFOps (applyFOp (newFuture z t) op) ops).get = _
    rw [hfix]

/-- C8: a task that panics during `Run()` is recovered and converted into a
stored "task panicked" error result: `Run` returns normally (it is a total
function here precisely because `invoke` recovers the `taskCall` panic),
the Future is completed with `(zero, panicked msg)`, and `Get()` returns
that pair — the panic is never propagated out of `Run()`. -/
theorem run_recovers_panic {R : Type} (z : R) (msg : String) :
    (newFuture z (TaskOutcome.panics msg)).run
      = ⟨z, TaskOutcome.panics msg, some (FutureCause.fres z (some (GoErr.panicked msg)))⟩ ∧
    (newFuture z (TaskOutcome.panics msg)).run.get = some (z, some (GoErr.panicked msg)) ∧
    @taskCall R (TaskOutcome.panics msg) = Except.error msg := by
  refine ⟨?_, ?_, rfl⟩
  · unfold Future.run Future.isDone newFuture Future.invoke Future.callback taskCall
    simp
  · unfold Future.run Future.isDone newFuture Future.invoke Future.callback taskCall Future.get
    simp

/-- C4 counterexample: Future wrapping a task that would return `(42, nil)`;
the caller's (parent) context is cancelled first.  `Get` then returns the
cancellation error `(0, canceled)` — but the Future is permanently done:
a later `Run()` is a no-op, and `Get` still returns the cancellation, not
the task's result `(42, nil)`.  The claim's "the task can still complete it
normally afterwards" is false. -/
theorem get_parent_cancel_cex :
    ((newFuture (0 : Int) (TaskOutcome.ret 42 none)).parentCancel GoErr.canceled).get
      = some (0, some GoErr.canceled) ∧
    ((newFuture (0 : Int) (TaskOutcome.ret 42 none)).parentCancel GoErr.canceled).run
      = (newFuture (0 : Int) (TaskOutcome.ret 42 none)).parentCancel GoErr.canceled ∧
    ((newFuture (0 : Int) (TaskOutcome.ret 42 none)).parentCancel GoErr.canceled).run.get
      ≠ some (42, none) := by
  refine ⟨rfl, rfl, by decide⟩

/-- C4 amended: if the caller's context is cancelled with cause `e` before a
fresh Future completes, `Get()` returns the cancellation error
`(zero, e)`, and `Get` itself does not mutate the Future — but the parent
cancellation permanently completes it: subsequent `Run()` and `Cancel()`
calls are no-ops, so the task can no longer complete it normally. -/
theorem parent_cancel_completes {R : Type} (z : R) (t : TaskOutcome R) (e : GoErr) :
    ((newFuture z t).parentCancel e).get = some (z, some e) ∧
    ((newFuture z t).parentCancel e).run = (newFuture z t).parentCancel e ∧
    ((newFuture z t).parentCancel e).cancel = (newFuture z t).parentCancel e ∧
    ((newFuture z t).parentCancel e).isDone = true := by
  refine ⟨rfl, ?_, rfl, rfl⟩
  unfold Future.run Future.isDone newFuture Future.parentCancel
  simp

/-- Go `workerPool[R]`.  `shutdown` models `wp.ctx.Err() != nil` (the pool
token is cancelled), `size` the worker count, `queueCap` the buffered
capacity of `taskQueue` (fixed at construction), `queue` its contents
(front = next to be received). -/
structure WorkerPool (R : Type) : Type where
  shutdown : Bool
  size : Int
  queueCap : Int
  queue : List (Future R)
  deriving DecidableEq, Repr

/-- Go `NewWorkerPool`: a requested size `≤ 0` is clamped to 1; the task
queue is created with capacity `size*2` (after clamping); the pool starts
uncancelled with an empty queue. -/
def newWorkerPool (R : Type) (size : Int) : WorkerPool R :=
  let s : Int := if size ≤ 0 then 1 else size
  ⟨false, s, s * 2, []⟩

/-- Go `workerPool.Submit`.  If the pool is shut down it returns (without
enqueuing anything) a fresh Future wrapping a task that would return
`ErrWorkerPoolShutdown`; otherwise it wraps the submitted task in a fresh
Future and tries a non-blocking send (`select` with `default`): on success
the Future is enqueued and returned, and if the queue is full it returns a
fresh Future wrapping a task that would return `ErrTaskQueueFull`.  Total
function: `Submit` never blocks. -/
def submit {R : Type} (wp : WorkerPool R) (z : R) (t : TaskOutcome R) :
    WorkerPool R × Future R :=
  if wp.shutdown then
    (wp, newFuture z (TaskOutcome.ret z (some GoErr.workerPoolShutdown)))
  else
    let f := newFuture z t
    if (wp.queue.length : Int) < wp.queueCap then
      (⟨wp.shutdown, wp.size, wp.queueCap, wp.queue ++ [f]⟩, f)
    else
      (wp, newFuture z (TaskOutcome.ret z (some GoErr.taskQueueFull)))

/-- What one iteration of the Go `worker` loop does in a given pool state. -/
inductive WorkerAction (R : Type) : Type where
  | exit
  | waiting
  | runTask (f : Future R)
  deriving DecidableEq, Repr

/-- One iteration of Go `workerPool.worker`: first `if wp.IsShutdown()
{ return }` — the worker exits as soon as the pool token is cancelled,
regardless of the queue; otherwise the `select` receives the next queued
Future and runs it, or blocks waiting (until a task arrives or the pool
context becomes done). -/
def workerStep {R : Type} (wp : WorkerPool R) : WorkerAction R :=
  if wp.shutdown then WorkerAction.exit
  else
    match wp.queue with
    | [] => WorkerAction.waiting
    | f :: _ => WorkerAction.runTask f

/-- C2 (bug witness): `Submit` on an already-shut-down pool, and `Submit`
on a full queue, each return a Future that is *pending* (`completed =
none`), is *not* enqueued, and whose `Get()` therefore blocks (`none`)
instead of immediately yielding the shutdown / queue-full error: the error
sits in a task nobody will ever run. -/
theorem submit_rejected_future_blocks :
    (submit (⟨true, 1, 2, []⟩ : WorkerPool Int) 0 (TaskOutcome.ret 42 none)).2.completed = none ∧
    (submit (⟨true, 1, 2, []⟩ : WorkerPool Int) 0 (TaskOutcome.ret 42 none)).2.get = none ∧
    (submit (⟨true, 1, 2, []⟩ : WorkerPool Int) 0 (TaskOutcome.ret 42 none)).1.queue = [] ∧
    (submit
      (⟨false, 1, 2, [newFuture (0 : Int) (TaskOutcome.ret 1 none),
                      newFuture (0 : Int) (TaskOutcome.ret 2 none)]⟩ : WorkerPool Int)
      0 (TaskOutcome.ret 42 none)).2.completed = none ∧
    (submit
      (⟨false, 1, 2, [newFuture (0 : Int) (TaskOutcome.ret 1 none),
                      newFuture (0 : Int) (TaskOutcome.ret 2 none)]⟩ : WorkerPool Int)
      0 (TaskOutcome.ret 42 none)).2.get = none ∧
    (submit
      (⟨false, 1, 2, [newFuture (0 : Int) (TaskOutcome.ret 1 none),
                      newFuture (0 : Int) (TaskOutcome.ret 2 none)]⟩ : WorkerPool Int)
      0 (TaskOutcome.ret 42 none)).1.queue.length = 2 := by
  refine ⟨rfl, rfl, rfl, rfl, rfl, rfl⟩

/-- C3 counterexample: a pool whose token is cancelled while one Future is
still queued — the worker's next iteration exits (`IsShutdown` check at the
top of the loop) even though the queue is non-empty, so the queued
Future is abandoned, contradicting "a worker returns only when the pool
token is cancelled AND the queue is empty". -/
theorem worker_exit_drops_queue_cex :
    workerStep (⟨true, 1, 2, [newFuture (0 : Int) (TaskOutcome.ret 7 none)]⟩ : WorkerPool Int)
      = WorkerAction.exit ∧
    (⟨true, 1, 2, [newFuture (0 : Int) (TaskOutcome.ret 7 none)]⟩ : WorkerPool Int).queue
      ≠ [] := by
  refine ⟨rfl, by decide⟩

/-- C3 amended: a worker iteration exits exactly when the pool token is
cancelled (as observed at the iteration boundary), regardless of whether
the queue is empty; it never exits while the token is uncancelled, but
Futures still queued at shutdown may be abandoned. -/
theorem worker_exit_iff_shutdown {R : Type} (wp : WorkerPool R) :
    workerStep wp = WorkerAction.exit ↔ wp.shutdown = true := by
  unfold workerStep
  constructor
  · intro h
    by_contra hn
    simp only [Bool.not_eq_true] at hn
    rw [hn] at h
    simp only [Bool.false_eq_true, if_false] at h
    cases hq : wp.queue with
    | nil => rw [hq] at h; exact WorkerAction.noConfusion h
    | cons f rest => rw [hq] at h; exact WorkerAction.noConfusion h
  · intro h
    rw [h]
    simp

/-- C10: `NewWorkerPool` clamps every requested size `s ≤ 0` to one worker
(never failing, never zero workers), so every constructed pool has at least
one worker, and its task queue capacity is `2 ×` the worker count. -/
theorem newWorkerPool_clamps (size : Int) :
    1 ≤ (newWorkerPool Int size).size ∧
    (newWorkerPool Int size).queueCap = 2 * (newWorkerPool Int size).size ∧
    (size ≤ 0 → (newWorkerPool Int size).size = 1) := by
  show 1 ≤ (if size ≤ 0 then 1 else size) ∧
    (if size ≤ 0 then (1 : Int) else size) * 2 = 2 * (if size ≤ 0 then 1 else size) ∧
    (size ≤ 0 → (if size ≤ 0 then (1 : Int) else size) = 1)
  by_cases h : size ≤ 0
  · rw [if_pos h]
    exact ⟨le_refl 1, by ring, fun _ => rfl⟩
  · rw [if_neg h]
    exact ⟨by omega, by ring, fun hc => absurd hc h⟩

/-- Witness for `newWorkerPool_clamps` at the concrete size `-3`. -/
theorem newWorkerPool_clamps_witness :
    ((-3 : Int) ≤ 0) ∧ (newWorkerPool Int (-3)).size = 1 ∧
    1 ≤ (newWorkerPool Int (-3)).size ∧
    (newWorkerPool Int (-3)).queueCap = 2 * (newWorkerPool Int (-3)).size :=
  ⟨by decide, (newWorkerPool_clamps (-3)).2.2 (by decide),
    (newWorkerPool_clamps (-3)).1, (newWorkerPool_clamps (-3)).2.1⟩

/-- Events a caller blocked in `ConnPool.Execute`'s admission `select` can
observe, in order: a semaphore slot becomes free, the caller's own context
is cancelled, or the pool's token is cancelled. -/
inductive WaitEvent : Type where
  | slotFree
  | callerCancel
  | poolCancel
  deriving DecidableEq, Repr

/-- Outcome of the admission wait. -/
inductive WaitResult : Type where
  | admitted (poolCancelled : Bool)
  | ctxCancelled
  | stuck
  deriving DecidableEq, Repr

/-- The admission `select` of Go `ConnPool.Execute`:

  select { case <-ctx.Done(): ...; case cp.sema <- struct{}{}: ... }

It resolves at the first `slotFree` or `callerCancel` event; a `poolCancel`
event is *not* one of the select's cases, so it is skipped (only remembered
in the accumulator `pc`, because `Get` will observe it later via
`IsShutdown`).  If no resolving event ever arrives the caller blocks
forever (`stuck`). -/
def waitResolveAux (pc : Bool) : List WaitEvent → WaitResult
  | [] => WaitResult.stuck
  | WaitEvent.slotFree :: _ => WaitResult.admitted pc
  | WaitEvent.callerCancel :: _ => WaitResult.ctxCancelled
  | WaitEvent.poolCancel :: es => waitResolveAux true es

/-- Return value of `ConnPool.Execute`. -/
inductive ExecRet : Type where
  | ok
  | errAlreadyShutdown
  | errCtxCancelled
  | errShutdownAtGet
  | errFactory
  | blockedForever
  deriving DecidableEq, Repr

/-- Observable outcome of one `ConnPool.Execute` call: its return value,
whether `fn` was invoked, and whether the factory created a resource. -/
structure ExecResult : Type where
  ret : ExecRet
  fnInvoked : Bool
  resourceCreated : Bool
  deriving DecidableEq, Repr

/-- Go `ConnPool.Execute`, serialised: `shutdown0` is `cp.IsShutdown()` at
entry, `events` drives the admission wait, `idleAtGet` is the size of
`idleCons` when `Get` runs, `factoryOk` whether the factory succeeds.
Entry check: shut-down pool → "already shutdown" error.  Then the
admission `select` (`waitResolveAux`).  Once admitted, `Get` re-checks
`IsShutdown` (catching a pool cancellation that happened during the wait),
then takes an idle resource if present (the `select` with `default`
prefers the ready receive), otherwise calls the factory; on success `fn`
is invoked. -/
def connPoolExecute (shutdown0 : Bool) (events : List WaitEvent)
    (idleAtGet : Nat) (factoryOk : Bool) : ExecResult :=
  if shutdown0 then ⟨ExecRet.errAlreadyShutdown, false, false⟩
  else
    match waitResolveAux false events with
    | WaitResult.stuck => ⟨ExecRet.blockedForever, false, false⟩
    | WaitResult.ctxCancelled => ⟨ExecRet.errCtxCancelled, false, false⟩
    | WaitResult.admitted pc =>
        if pc then ⟨ExecRet.errShutdownAtGet, false, false⟩
        else if 0 < idleAtGet then ⟨ExecRet.ok, true, false⟩
        else if factoryOk then ⟨ExecRet.ok, true, true⟩
        else ⟨ExecRet.errFactory, false, false⟩

/-- C5 counterexample: a caller enters `Execute` on a live pool and blocks
on the admission semaphore; then the pool's own token is cancelled and
nothing else ever happens.  The claim says the wait ends at "whichever
happens first" of slot/caller-cancel/pool-cancel with a cancellation-error
return — but the admission `select` does not watch the pool token, so the
call stays blocked forever.  And if a slot does free up afterwards
(second conjunct), the caller is admitted and gets a shutdown error from
`Get` rather than having returned at the pool-cancellation instant. -/
theorem execute_pool_cancel_blocks_cex :
    connPoolExecute false [WaitEvent.poolCancel] 0 true
      = ⟨ExecRet.blockedForever, false, false⟩ ∧
    (connPoolExecute false [WaitEvent.poolCancel] 0 true).ret ≠ ExecRet.errCtxCancelled ∧
    (connPoolExecute false [WaitEvent.poolCancel] 0 true).ret ≠ ExecRet.errAlreadyShutdown ∧
    connPoolExecute false [WaitEvent.poolCancel, WaitEvent.slotFree] 3 true
      = ⟨ExecRet.errShutdownAtGet, false, false⟩ := by
  refine ⟨rfl, by decide, by decide, rfl⟩

/-- C5 amended: the admission wait of `Execute` on a live pool ends only
when a semaphore slot frees or the caller's own context cancels (the pool
token is checked only at entry and again inside `Get` after admission);
when the caller's context cancels first, `Execute` returns the
cancellation error without invoking `fn` and without creating any
resource. -/
theorem execute_caller_cancel_no_resource (events : List WaitEvent)
    (idleAtGet : Nat) (factoryOk : Bool)
    (h : waitResolveAux false events = WaitResult.ctxCancelled) :
    connPoolExecute false events idleAtGet factoryOk
      = ⟨ExecRet.errCtxCancelled, false, false⟩ := by
  unfold connPoolExecute
  rw [h]
  simp

/-- Witness for `execute_caller_cancel_no_resource`: the caller's context
cancels while blocked (after an unobserved pool cancellation). -/
theorem execute_caller_cancel_no_resource_witness :
    waitResolveAux false [WaitEvent.poolCancel, WaitEvent.callerCancel]
      = WaitResult.ctxCancelled ∧
    connPoolExecute false [WaitEvent.poolCancel, WaitEvent.callerCancel] 2 true
      = ⟨ExecRet.errCtxCancelled, false, false⟩ :=
  ⟨by decide,
    execute_caller_cancel_no_resource [WaitEvent.poolCancel, WaitEvent.callerCancel]
      2 true (by decide)⟩

/-- Resource-counting state of a `ConnPool`: `slots` = semaphore slots
currently held (`len(cp.sema)`), `inUse` = connections currently held by
`Execute` callers outside the idle cache, `idle` = connections in
`idleCons` (`len(cp.idleCons)`). -/
structure CPState : Type where
  slots : Nat
  inUse : Nat
  idle : Nat
  deriving DecidableEq, Repr

/-- Atomic transitions of the `ConnPool` protocol with capacity `C`,
read off `Execute`/`Get`/`Put`/`Shutdown`:

* `acquire`: `cp.sema <- struct{}{}` succeeds only while `slots < C`
  (`sema` has capacity `C`).
* `getIdle`: an admitted caller holding no connection (`inUse < slots`)
  receives from a non-empty `idleCons`.
* `getFactory`: an admitted caller holding no connection calls the factory
  — only via the `select`'s `default` branch, i.e. only when `idle = 0`.
* `putIdle`: `Put` returns a held connection to `idleCons` when it has
  room (`idle < C`, its capacity).
* `putClose`: `Put` closes a held connection (pool shut down, or
  `idleCons` full).
* `release`: `<-cp.sema` — the deferred semaphore release runs after the
  deferred `Put` (LIFO defers), so the releasing caller no longer holds a
  connection: `inUse < slots`.
* `drainIdle`: `Shutdown` closes a connection drained from `idleCons`. -/
inductive CPStep (C : Nat) : CPState → CPState → Prop where
  | acquire (s k i : Nat) : s < C → CPStep C ⟨s, k, i⟩ ⟨s + 1, k, i⟩
  | getIdle (s k i : Nat) : k < s → 0 < i → CPStep C ⟨s, k, i⟩ ⟨s, k + 1, i - 1⟩
  | getFactory (s k : Nat) : k < s → CPStep C ⟨s, k, 0⟩ ⟨s, k + 1, 0⟩
  | putIdle (s k i : Nat) : 0 < k → i < C → CPStep C ⟨s, k, i⟩ ⟨s, k - 1, i + 1⟩
  | putClose (s k i : Nat) : 0 < k → CPStep C ⟨s, k, i⟩ ⟨s, k - 1, i⟩
  | release (s k i : Nat) : k < s → CPStep C ⟨s, k, i⟩ ⟨s - 1, k, i⟩
  | drainIdle (s k i : Nat) : 0 < i → CPStep C ⟨s, k, i⟩ ⟨s, k, i - 1⟩

/-- States reachable from the freshly constructed pool (`NewPool`: empty
semaphore, empty idle cache, no caller holds anything). -/
inductive CPReachable (C : Nat) : CPState → Prop where
  | init : CPReachable C ⟨0, 0, 0⟩
  | step {t t' : CPState} : CPReachable C t → CPStep C t t' → CPReachable C t'

theorem cpReachable_inv {C : Nat} {t : CPState} (h : CPReachable C t) :
    t.slots ≤ C ∧ t.inUse ≤ t.slots ∧ t.inUse + t.idle ≤ C := by
  induction h with
  | init => exact ⟨Nat.zero_le C, le_refl 0, Nat.zero_le C⟩
  | step hr hs ih =>
      obtain ⟨h1, h2, h3⟩ := ih
      cases hs <;> dsimp only at h1 h2 h3 ⊢ <;> refine ⟨?_, ?_, ?_⟩ <;> omega

/-- C6: for a `ConnPool` of capacity `C`, in every reachable state the
number of connections held by `Execute` callers plus the number in the
idle cache never exceeds `C`; every `Execute`/`Get`/`Put`/`Shutdown`
transition preserves the bound. -/
theorem connPool_capacity_invariant (C : Nat) (t : CPState)
    (h : CPReachable C t) : t.inUse + t.idle ≤ C :=
  (cpReachable_inv h).2.2

/-- Witness for `connPool_capacity_invariant`: capacity 1, after a caller
is admitted and the factory creates a connection. -/
theorem connPool_capacity_invariant_witness :
    CPReachable 1 ⟨1, 1, 0⟩ ∧ 1 + 0 ≤ 1 := by
  have h : CPReachable 1 ⟨1, 1, 0⟩ :=
    CPReachable.step
      (CPReachable.step CPReachable.init (CPStep.acquire 0 0 0 (by decide)))
      (CPStep.getFactory 1 0 (by decide))
  exact ⟨h, connPool_capacity_invariant 1 ⟨1, 1, 0⟩ h⟩

/-- The application components constructed by `InitApplication` and torn
down by `Application.Shutdown` (the controller is constructed too but has
no teardown). -/
inductive Component : Type where
  | http
  | pool
  | cache
  | db
  deriving DecidableEq, Repr

/-- Construction order in Go `InitApplication`: `NewDatabase`, then
`NewCache`, then `NewWorkerPool`, then (`NewController` and)
`NewHttpServer`. -/
def initOrder : List Component :=
  [Component.db, Component.cache, Component.pool, Component.http]

/-- The fields of Go `Application` relevant to `Shutdown`'s nil-checks. -/
structure Application : Type where
  hasPool : Bool
  hasCache : Bool
  hasDb : Bool
  deriving DecidableEq, Repr

/-- Go `InitApplication` populates every component field. -/
def initApplication : Application := ⟨true, true, true⟩

/-- Teardown sequence executed by Go `Application.Shutdown`:
`httpServer.Shutdown(ctx)` unconditionally, then `pool.Shutdown()`,
`cache.Shutdown()`, `db.Shutdown()`, each guarded by a nil-check, in that
fixed textual order on every invocation. -/
def shutdownOrder (app : Application) : List Component :=
  [Component.http]
    ++ (if app.hasPool then [Component.pool] else [])
    ++ (if app.hasCache then [Component.cache] else [])
    ++ (if app.hasDb then [Component.db] else [])

/-- C7: for the application built by `InitApplication`, `Shutdown` tears
components down in strict reverse of the construction order — HTTP
listener, then worker pool, then cache refresher, then database/conn pool
— and, `shutdownOrder` being a function of the application value, the same
sequence is executed on every invocation. -/
theorem shutdown_reverse_of_init :
    shutdownOrder initApplication = initOrder.reverse ∧
    shutdownOrder initApplication
      = [Component.http, Component.pool, Component.cache, Component.db] := by
  exact ⟨rfl, rfl⟩

/-- What the `pooling` loop of the cache refresher can observe at its
`select`: a ticker tick, or cancellation of its governing token. -/
inductive PEvent : Type where
  | tick
  | cancel
  deriving DecidableEq, Repr

/-- Number of `refresh()` calls made by the `for`/`select` part of Go
`cache.pooling`, given the serialised sequence of events it observes: a
tick runs `refresh()` once and loops; an observed cancellation returns
immediately, so no later event is even looked at. -/
def poolingLoop : List PEvent → Nat
  | [] => 0
  | PEvent.tick :: es => 1 + poolingLoop es
  | PEvent.cancel :: _ => 0

/-- Total number of `refresh()` calls of Go `cache.pooling`: one call
before the ticker is even created, plus the loop's calls. -/
def refreshCount (es : List PEvent) : Nat := 1 + poolingLoop es

theorem poolingLoop_append_cancel (pre post : List PEvent)
    (h : PEvent.cancel ∉ pre) :
    poolingLoop (pre ++ PEvent.cancel :: post) = pre.length := by
  induction pre with
  | nil => rfl
  | cons e es ih =>
      cases e with
      | tick =>
          show 1 + poolingLoop (es ++ PEvent.cancel :: post) = es.length + 1
          rw [ih (fun hm => h (List.mem_cons_of_mem _ hm))]
          omega
      | cancel => exact absurd (List.mem_cons_self _ _) h

/-- C9: the refresher runs its job exactly once before the first interval
wait (`pre = []` gives `refreshCount = 1`), then exactly once per elapsed
interval tick, and once cancellation is observed at the wait point no
further refresh occurs: the count is `1 + pre.length` for any tick-only
prefix `pre`, independent of everything after the cancellation. -/
theorem refresher_once_per_tick_until_cancel (pre post : List PEvent)
    (h : PEvent.cancel ∉ pre) :
    refreshCount (pre ++ PEvent.cancel :: post) = 1 + pre.length := by
  unfold refreshCount
  rw [poolingLoop_append_cancel pre post h]

/-- Witness for `refresher_once_per_tick_until_cancel`: two ticks, then
cancellation, then a further (ignored) tick — three refreshes in all. -/
theorem refresher_once_per_tick_until_cancel_witness :
    PEvent.cancel ∉ [PEvent.tick, PEvent.tick] ∧
    refreshCount ([PEvent.tick, PEvent.tick] ++ PEvent.cancel :: [PEvent.tick])
      = 1 + [PEvent.tick, PEvent.tick].length :=
  ⟨by decide,
    refresher_once_per_tick_until_cancel [PEvent.tick, PEvent.tick]
      [PEvent.tick] (by decide)⟩
